import Mathlib

/-!
Verification of the gold-layer ETL units of the rainforest e-commerce
medallion pipeline (`DailyOrderMetricsGoldETL`, `WideOrderItemsGoldETL`).

Modelling conventions (shallow embedding of the Python/Spark source):

* Ingestion timestamps are represented by their canonical fixed-width string
  rendering (as produced by interpolating a `datetime` value); chronological
  order on such renderings coincides with the character-wise order `tsLt`
  defined below.
* A Spark SQL value is a `Value`: either a scalar `Prim`, or an array of
  scalar pairs (arrays arise in this codebase only from
  `collect_list(struct(c1, c2))`, so pairs of scalars suffice).
* A dataframe `DF` carries a column list and rows; every column is a `QCol`,
  a pair of an origin tag and a column name.  The origin tag models Spark's
  column lineage: `df["c"]` in the source resolves a column reference in a
  specific input dataframe, and `.drop(df["c"])` removes exactly that
  lineage-resolved column even when several joined sides share the name `c`.
  `DF.Aligned` states that every row is keyed exactly by the column list.
* The dataframe/storage engine is the out-of-scope collaborator of the spec;
  its operations (`filter`, `select`, `withColumn`, `join ... using key`,
  `groupBy().agg(...)`, partitioned append/load) are modelled here by
  executable Lean functions on `DF`.
* The SQL text handed to `filter(...)` by `read()` is modelled in two layers:
  the byte-exact string builder (`partitionFilterString`, built with the
  source's `" AND".join`) is analysed separately, while the filtering
  semantics of `read` is expressed over the clause list the string is built
  from (`rowMatchesClauses`), i.e. over the equality conjunction the string
  denotes when it is well formed.
-/

namespace EcomETL

/-! ### Scalar and array values -/

/-- Scalar SQL values: null, booleans, integers, exact decimals (modelled as
rationals), strings, timestamps and dates (both modelled by their canonical
string rendering). -/
inductive Prim : Type where
  | pNull : Prim
  | pBool (b : Bool) : Prim
  | pInt (i : Int) : Prim
  | pDec (q : ℚ) : Prim
  | pStr (s : String) : Prim
  | pTs (t : String) : Prim
  | pDate (d : String) : Prim
deriving DecidableEq, Repr

/-- A Spark SQL cell value: a scalar, or an array of scalar pairs (the shape
produced by `collect_list(struct(category_id, category_name))`). -/
inductive Value : Type where
  | prim (p : Prim) : Value
  | arr (vs : List (Prim × Prim)) : Value
deriving DecidableEq, Repr

/-- Character-wise strict order on strings, by code point; on the canonical
fixed-width timestamp renderings this is chronological order. -/
def ltChars : List Char → List Char → Bool
  | [], [] => false
  | [], _ :: _ => true
  | _ :: _, [] => false
  | a :: as, b :: bs =>
    if a.toNat < b.toNat then true
    else if b.toNat < a.toNat then false
    else ltChars as bs

/-- Strict order on timestamp renderings. -/
def tsLt (a b : String) : Bool := ltChars a.data b.data

/-- Binary maximum of two timestamp renderings, as computed by the SQL
aggregate `max`. -/
def maxTs (a b : String) : String := if tsLt a b then b else a

/-! ### Rows and dataframes -/

/-- A qualified column: origin tag (which input dataframe the column
descends from) together with the column name. -/
abbrev QCol := String × String

/-- A row is an association list from qualified columns to values. -/
abbrev Row := List (QCol × Value)

/-- Name-based column lookup in a row, as performed by `col("c")` references:
the first column whose name matches is used. -/
def Row.getByName (r : Row) (c : String) : Option Value :=
  (r.find? (fun e => e.1.2 == c)).map (fun e => e.2)

/-- The qualified columns of a row, in order. -/
def Row.qcols (r : Row) : List QCol := r.map (fun e => e.1)

/-- A dataframe: its schema (qualified columns) and its rows. -/
structure DF : Type where
  cols : List QCol
  rows : List Row
deriving DecidableEq, Repr

/-- A dataframe is aligned when every row is keyed exactly by the schema. -/
def DF.Aligned (df : DF) : Prop := ∀ r ∈ df.rows, r.qcols = df.cols

/-- Resolution of a bare column name against a schema, keeping the lineage
tag of the first matching column (missing names resolve to an untagged
column, the case the engine would reject). -/
def resolveQ (cols : List QCol) (c : String) : QCol :=
  (cols.find? (fun q => q.2 == c)).getD ("", c)

/-- Engine `filter` on rows. -/
def DF.filterRows (df : DF) (p : Row → Bool) : DF :=
  ⟨df.cols, df.rows.filter p⟩

/-- Engine `select` by column names: the result is projected, row by row, to
exactly the requested names in the requested order. -/
def DF.selectNames (df : DF) (cs : List String) : DF :=
  ⟨cs.map (fun c => resolveQ df.cols c),
   df.rows.map (fun r => cs.map (fun c => (resolveQ df.cols c, (r.getByName c).getD (Value.prim .pNull))))⟩

/-- Engine `withColumn c f`: replace the column named `c` if present,
otherwise append it; the new column carries the origin tag `org` of the
producing dataframe. -/
def DF.withColumnE (df : DF) (c : String) (f : Row → Value) (org : String) : DF :=
  if df.cols.any (fun q => q.2 == c) then
    ⟨df.cols.map (fun q => if q.2 == c then (org, c) else q),
     df.rows.map (fun r => r.map (fun e => if e.1.2 == c then ((org, c), f r) else e))⟩
  else
    ⟨df.cols ++ [(org, c)],
     df.rows.map (fun r => r ++ [((org, c), f r)])⟩

/-- Engine `drop(df[c])`: remove one lineage-resolved column. -/
def DF.dropCol (df : DF) (q : QCol) : DF :=
  ⟨df.cols.filter (fun q2 => !(q2 == q)),
   df.rows.map (fun r => r.filter (fun e => !(e.1 == q)))⟩

/-- Lineage-resolved column reference `df["c"]`. -/
def DF.colRef (df : DF) (c : String) : QCol := resolveQ df.cols c

/-- SQL equality used by join matching: null never compares equal. -/
def joinValEq (a b : Value) : Bool :=
  !(a == Value.prim .pNull) && !(b == Value.prim .pNull) && a == b

/-- Engine `join(other, key, kind)` with a `USING`-style string key: the
output schema is the key column (from the left side), then the remaining
left columns, then the remaining right columns; `leftOuter` null-extends
unmatched left rows over the right columns. -/
def DF.joinUsing (l r : DF) (key : String) (leftOuter : Bool) : DF :=
  ⟨l.cols.filter (fun q => q.2 == key) ++ l.cols.filter (fun q => !(q.2 == key))
     ++ r.cols.filter (fun q => !(q.2 == key)),
   l.rows.flatMap (fun lr =>
     if (r.rows.filter (fun rr =>
           joinValEq ((lr.getByName key).getD (Value.prim .pNull))
             ((rr.getByName key).getD (Value.prim .pNull)))).isEmpty then
       if leftOuter then
         [lr.filter (fun e => e.1.2 == key) ++ lr.filter (fun e => !(e.1.2 == key))
            ++ (r.cols.filter (fun q => !(q.2 == key))).map (fun q => (q, Value.prim .pNull))]
       else []
     else
       (r.rows.filter (fun rr =>
           joinValEq ((lr.getByName key).getD (Value.prim .pNull))
             ((rr.getByName key).getD (Value.prim .pNull)))).map
         (fun rr => lr.filter (fun e => e.1.2 == key) ++ lr.filter (fun e => !(e.1.2 == key))
            ++ rr.filter (fun e => !(e.1.2 == key))))⟩

/-- Distinct values in order of first appearance, as a deterministic model of
the engine's group-key enumeration. -/
def distinctVals (vs : List Value) : List Value :=
  vs.foldl (fun acc v => if acc.contains v then acc else acc ++ [v]) []

/-- The decimal values of column `c` over a row group; the SQL aggregates
`sum` and `mean` range over exactly these (nulls and non-decimals skipped,
as SQL aggregates skip nulls). -/
def decVals (rows : List Row) (c : String) : List ℚ :=
  rows.filterMap (fun r =>
    match r.getByName c with
    | some (Value.prim (Prim.pDec q)) => some q
    | _ => none)

/-- Engine `groupBy("order_date").agg(sum("total_price"), mean("total_price"))`
as used by the daily-metrics transform: one output row per distinct date, with
the exact sum and mean of the group's `total_price` values. -/
def dailyAgg (df : DF) : DF :=
  let keys := distinctVals (df.rows.map (fun r => (r.getByName "order_date").getD (Value.prim .pNull)))
  ⟨[("agg", "order_date"), ("agg", "total_price_sum"), ("agg", "total_price_mean")],
   keys.map (fun k =>
     let grp := df.rows.filter (fun r => ((r.getByName "order_date").getD (Value.prim .pNull)) == k)
     let qs := decVals grp "total_price"
     [(("agg", "order_date"), k),
      (("agg", "total_price_sum"),
        if qs.isEmpty then Value.prim .pNull else Value.prim (.pDec qs.sum)),
      (("agg", "total_price_mean"),
        if qs.isEmpty then Value.prim .pNull
        else Value.prim (.pDec (qs.sum / (qs.length : ℚ))))])⟩

/-- Cast a value to a scalar, used when packing `struct(c1, c2)` fields. -/
def Value.toPrim : Value → Prim
  | Value.prim p => p
  | Value.arr _ => Prim.pNull

/-- Engine
`groupby("product_id").agg(collect_list(struct("category_id", "category_name")).alias("categories"))`
as used by the wide-order-items transform. -/
def collectCategories (df : DF) : DF :=
  let keys := distinctVals (df.rows.map (fun r => (r.getByName "product_id").getD (Value.prim .pNull)))
  ⟨[("agg", "product_id"), ("agg", "categories")],
   keys.map (fun k =>
     let grp := df.rows.filter (fun r => ((r.getByName "product_id").getD (Value.prim .pNull)) == k)
     [(("agg", "product_id"), k),
      (("agg", "categories"),
        Value.arr (grp.map (fun r =>
          (((r.getByName "category_id").getD (Value.prim .pNull)).toPrim,
           ((r.getByName "category_name").getD (Value.prim .pNull)).toPrim))))])⟩

/-- Cast to `date`, modelling `col("order_ts").cast("date")` on canonical
timestamp renderings `YYYY-MM-DD HH:MM:SS...`: keep the ten date characters. -/
def castToDate : Value → Value
  | Value.prim (Prim.pTs t) => Value.prim (.pDate (String.mk (t.data.take 10)))
  | Value.prim (Prim.pDate d) => Value.prim (.pDate d)
  | _ => Value.prim .pNull

/-- SQL truthiness of a boolean column, as used by `filter(col("is_active"))`:
only a true boolean passes. -/
def isTrueVal : Option Value → Bool
  | some (Value.prim (Prim.pBool true)) => true
  | _ => false

/-! ### Dataset envelope and unit state -/

/-- The `ETLDataSet` value object of `etl.utils.base_table`: a dataframe
handle plus identity and persistence metadata. -/
structure ETLDataSet : Type where
  name : String
  current_data : DF
  primary_keys : List String
  storage_path : String
  data_format : String
  database : String
  partition_keys : List String
deriving DecidableEq, Repr

/-- The per-instance execution state of a table ETL unit that `read` and
`transform_upstream` interact with: the two execution-mode flags and the
`current_data` cache (set as a side effect of `transform_upstream`). -/
structure TableState : Type where
  run_upstream : Bool
  write_data : Bool
  current_data : DF
deriving DecidableEq, Repr

/-! ### Partition filter strings (`read`, explicit-partition branch)

The source builds the SQL text
`" AND".join([f"{k} = '{v}'" for k, v in partition_values.items()])`
and hands it to the engine's `filter`.  `partitionFilterString` is that
builder, byte for byte; `specConjunctionFilter` is the conjunction the spec
describes (separator `" AND "`).  -/

/-- One single-quote character, as used around the interpolated values. -/
def sQuote : String := String.singleton (Char.ofNat 39)

/-- The filter text built by `read()` from `partition_values`
(the source's `" AND".join(...)` — note the separator has no trailing
space). -/
def partitionFilterString (partition_values : List (String × String)) : String :=
  String.intercalate " AND" (partition_values.map (fun kv => kv.1 ++ " = " ++ sQuote ++ kv.2 ++ sQuote))

/-- Modelled from the spec: build an equality predicate over exactly the
given partition columns — a well-formed SQL conjunction joins its equality
clauses with the separator `" AND "`. -/
def specConjunctionFilter (partition_values : List (String × String)) : String :=
  String.intercalate " AND " (partition_values.map (fun kv => kv.1 ++ " = " ++ sQuote ++ kv.2 ++ sQuote))

/-- Row semantics of one equality clause `k = 'v'`: the row's column `k`
must hold a non-null value whose canonical rendering is `v`. -/
def Value.matchesLit : Value → String → Bool
  | Value.prim (Prim.pTs t), lit => t == lit
  | Value.prim (Prim.pDate d), lit => d == lit
  | Value.prim (Prim.pStr s), lit => s == lit
  | Value.prim (Prim.pInt i), lit => toString i == lit
  | _, _ => false

/-- Row semantics of a conjunction of equality clauses. -/
def rowMatchesClauses (clauses : List (String × String)) (r : Row) : Bool :=
  clauses.all (fun kv =>
    match r.getByName kv.1 with
    | some v => v.matchesLit kv.2
    | none => false)

/-! ### Latest-partition probe -/

/-- The ingestion timestamp carried by a stored row, when present. -/
def rowTs (r : Row) : Option String :=
  match r.getByName "etl_inserted" with
  | some (Value.prim (Prim.pTs t)) => some t
  | _ => none

/-- The probe `selectExpr("max(etl_inserted)")` over the stored rows: SQL
`max`, skipping rows without a timestamp. -/
def maxEtl : List Row → Option String
  | [] => none
  | r :: rs =>
    match rowTs r, maxEtl rs with
    | some t, some m => some (maxTs t m)
    | some t, none => some t
    | none, o => o

/-- The literal interpolated into `f"etl_inserted = '{latest_partition}'"`:
the probed maximum, or the rendering of Python `None` over an empty probe. -/
def latestPartitionLit (storage : List Row) : String :=
  match maxEtl storage with
  | some m => m
  | none => "None"

/-! ### The shared gold `read`

The bodies of `DailyOrderMetricsGoldETL.read` and
`WideOrderItemsGoldETL.read` are token-identical except for the metadata
constants and the published column list, so they are embedded through one
parameterised function.  The three modes of the source, in order:
no-write (serve the `current_data` cache, no storage access), explicit
partition filter (truthy `partition_values`), latest-partition probe. -/

/-- Metadata constants of a table ETL unit. -/
structure Meta : Type where
  name : String
  primary_keys : List String
  storage_path : String
  data_format : String
  database : String
  partition_keys : List String

/-- Shared body of the two gold `read` methods.  `storage` is the dataframe
loaded from `storage_path`; the clause list carries the equality conjunction
denoted by the source's `partition_filter` string (see
`partitionFilterString` for the byte-exact builder and its flaw). -/
def goldRead (meta : Meta) (selected_columns : List String) (st : TableState)
    (storage : DF) (partition_values : List (String × String)) : ETLDataSet :=
  if st.write_data = false then
    { name := meta.name
      current_data := st.current_data.selectNames selected_columns
      primary_keys := meta.primary_keys
      storage_path := meta.storage_path
      data_format := meta.data_format
      database := meta.database
      partition_keys := meta.partition_keys }
  else
    { name := meta.name
      current_data :=
        (storage.filterRows (rowMatchesClauses
          (if !partition_values.isEmpty then partition_values
           else [("etl_inserted", latestPartitionLit storage.rows)]))).selectNames
          selected_columns
      primary_keys := meta.primary_keys
      storage_path := meta.storage_path
      data_format := meta.data_format
      database := meta.database
      partition_keys := meta.partition_keys }

/-! ### DailyOrderMetricsGoldETL (`src/etl/layers/gold/daily_order_metrics.py`) -/

namespace DailyOrderMetricsGoldETL

/-- Constructor defaults of `DailyOrderMetricsGoldETL.__init__`. -/
def meta : Meta :=
  { name := "daily_order_metrics"
    primary_keys := ["order_ts"]
    storage_path := "s3a://rainforest/delta/gold/daily_order_metrics"
    data_format := "delta"
    database := "rainforest"
    partition_keys := ["etl_inserted"] }

/-- The published column list of `read` (`selected_columns` in the source). -/
def selected_columns : List String :=
  ["order_date", "total_price_sum", "total_price_mean", "etl_inserted"]

/-- The transform of `DailyOrderMetricsGoldETL`: derive `order_date` from
`order_ts`, keep active orders, aggregate sum and mean of `total_price` per
date, and stamp the single ingestion timestamp `current_timestamp` (the
`datetime.now()` captured once per call, passed here explicitly).  Indexing
`upstream_datasets[0]` fails on an empty list, hence the `Option`. -/
def transform_upstream (upstream_datasets : List ETLDataSet) (current_timestamp : String) :
    Option ETLDataSet :=
  (upstream_datasets.get? 0).map (fun u0 =>
    let wide_orders_data := u0.current_data
    let wide_orders_data :=
      wide_orders_data.withColumnE "order_date"
        (fun r => castToDate ((r.getByName "order_ts").getD (Value.prim .pNull))) ""
    let wide_orders_data := wide_orders_data.filterRows (fun r => isTrueVal (r.getByName "is_active"))
    let daily_metrics_data := dailyAgg wide_orders_data
    let daily_metrics_data :=
      daily_metrics_data.withColumnE "etl_inserted" (fun _ => Value.prim (.pTs current_timestamp)) ""
    { name := meta.name
      current_data := daily_metrics_data
      primary_keys := meta.primary_keys
      storage_path := meta.storage_path
      data_format := meta.data_format
      database := meta.database
      partition_keys := meta.partition_keys })

/-- The `read` method (see `goldRead` for the shared body). -/
def read (st : TableState) (storage : DF) (partition_values : List (String × String)) : ETLDataSet :=
  goldRead meta selected_columns st storage partition_values

end DailyOrderMetricsGoldETL

/-! ### WideOrderItemsGoldETL (`src/etl/layers/gold/wide_order_items_gold.py`) -/

namespace WideOrderItemsGoldETL

/-- Constructor defaults of `WideOrderItemsGoldETL.__init__`. -/
def meta : Meta :=
  { name := "wide_order_items"
    primary_keys := ["order_item_id"]
    storage_path := "s3a://rainforest/delta/gold/wide_order_items"
    data_format := "delta"
    database := "rainforest"
    partition_keys := ["etl_inserted"] }

/-- The published column list of `read` (`selected_columns` in the source). -/
def selected_columns : List String :=
  ["order_item_id", "order_id", "product_id", "seller_id", "quantity",
   "base_price", "actual_price", "created_ts", "tax", "categories", "etl_inserted"]

/-- The transform of `WideOrderItemsGoldETL` on the five upstream envelopes
(fact order items, product dimension, seller dimension, product-category
bridge, category dimension), with the `datetime.now()` captured once per
call passed explicitly.  Indexing `upstream_datasets[0..4]` fails unless all
five are present, hence the `Option`. -/
def transform_upstream (upstream_datasets : List ETLDataSet) (current_timestamp : String) :
    Option ETLDataSet :=
  match upstream_datasets.get? 0, upstream_datasets.get? 1, upstream_datasets.get? 2,
      upstream_datasets.get? 3, upstream_datasets.get? 4 with
  | some u0, some u1, some u2, some u3, some u4 =>
    let fact_order_items_data := u0.current_data
    let dim_product_data := u1.current_data
    let dim_seller_data := u2.current_data
    let product_category_data := u3.current_data
    let dim_category_data := u4.current_data
    let wide_order_items_data :=
      (fact_order_items_data.joinUsing dim_product_data "product_id" true).joinUsing
        dim_seller_data "seller_id" true
    let product_category_enriched_data :=
      ((product_category_data.joinUsing dim_category_data "category_id" false).dropCol
          (dim_category_data.colRef "etl_inserted")).dropCol
        (product_category_data.colRef "etl_inserted")
    let product_category_data_product_grain := collectCategories product_category_enriched_data
    let wide_order_items_data :=
      wide_order_items_data.joinUsing product_category_data_product_grain "product_id" true
    let wide_order_items_data :=
      ((((wide_order_items_data.dropCol (fact_order_items_data.colRef "etl_inserted")).dropCol
            (dim_product_data.colRef "etl_inserted")).dropCol
          (dim_seller_data.colRef "etl_inserted")).withColumnE
        "etl_inserted" (fun _ => Value.prim (.pTs current_timestamp)) "")
    some
      { name := meta.name
        current_data := wide_order_items_data
        primary_keys := meta.primary_keys
        storage_path := meta.storage_path
        data_format := meta.data_format
        database := meta.database
        partition_keys := meta.partition_keys }
  | _, _, _, _, _ => none

/-- The `read` method (see `goldRead` for the shared body). -/
def read (st : TableState) (storage : DF) (partition_values : List (String × String)) : ETLDataSet :=
  goldRead meta selected_columns st storage partition_values

end WideOrderItemsGoldETL

/-! ### The `extract_upstream` loop

Both gold classes contain the same `extract_upstream` body: iterate over
`self.upstream_tables` in declaration order, instantiate each upstream class
with the unit's own `run_upstream` and `write_data`, call `run()` on the
instance when `run_upstream` is true, always call `read()`, and append the
envelope.  An upstream class is modelled by its observable behaviour: given
the two propagated flags, `run` transforms an external world `W` (storage and
catalog state) and `read` produces an envelope from the world. -/

/-- An upstream ETL class, as `extract_upstream` consumes it. -/
structure UpstreamClass (W : Type) : Type where
  run : Bool → Bool → W → W
  read : Bool → Bool → W → ETLDataSet

/-- The `extract_upstream` loop: a fold in declaration order, accumulating
the envelopes and threading the world through the conditional `run()`
calls. -/
def extract_upstream {W : Type} (run_upstream write_data : Bool)
    (upstream_tables : List (UpstreamClass W)) (w : W) : List ETLDataSet × W :=
  upstream_tables.foldl
    (fun acc table =>
      let w1 := if run_upstream then table.run run_upstream write_data acc.2 else acc.2
      (acc.1 ++ [table.read run_upstream write_data w1], w1))
    ([], w)

/-- The world after processing a list of upstream tables. -/
def runWorld {W : Type} (run_upstream write_data : Bool)
    (upstream_tables : List (UpstreamClass W)) (w : W) : W :=
  upstream_tables.foldl
    (fun wcur table => if run_upstream then table.run run_upstream write_data wcur else wcur) w

/-! ### Recursive upstream instantiation

For the flag-propagation invariant, a unit's dependency declaration is a
finitely branching tree of upstream classes.  The recursion through `run()`
is not under `src/` (only `etl.utils.base_table` declares it); per the spec,
`run()` re-enters `extract_upstream` on the instance before transforming and
writing, so a running child instantiates its own upstream with the child's
flags. -/

/-- A unit's upstream declaration: each node lists its `upstream_tables`. -/
inductive UnitDef : Type where
  | node (upstream_tables : List UnitDef) : UnitDef

/-- One observed upstream instantiation during recursive extraction: the two
flag values passed to the constructor, whether `run()` was invoked on the
instance, and whether `read()` was invoked. -/
structure InstEvent : Type where
  run_upstream : Bool
  write_data : Bool
  ranRun : Bool
  ranRead : Bool
deriving DecidableEq, Repr

mutual

/-- Modelled from the spec: the instantiation events produced by
`extract_upstream` of a unit with declaration `d` and flags `ru`, `wd` —
`run()` itself is declared in `etl.utils.base_table`, which is not under
`src/`; per the spec, `run()` starts with `extract_upstream`, which is how a
child that is run recurses into its own upstream declarations. -/
def extractTrace (d : UnitDef) (ru wd : Bool) : List InstEvent :=
  match d with
  | UnitDef.node ups => extractTraceList ups ru wd

/-- The events of the `extract_upstream` loop over one declaration list: each
declared upstream type is instantiated with the propagated flags, `run()` is
invoked on it exactly when `run_upstream` holds (recursing into its own
upstream), and `read()` is always invoked. -/
def extractTraceList (ups : List UnitDef) (ru wd : Bool) : List InstEvent :=
  match ups with
  | [] => []
  | u :: us =>
    ({ run_upstream := ru, write_data := wd, ranRun := ru, ranRead := true } ::
      (if ru then extractTrace u ru wd else [])) ++ extractTraceList us ru wd

end

/-! ### Concrete fixtures used by the claim witnesses -/

/-- A one-row cached dataframe used to instantiate claim C8. -/
def dfW8 : DF :=
  ⟨[("s", "order_date"), ("s", "total_price_sum"), ("s", "total_price_mean"), ("s", "etl_inserted")],
   [[(("s", "order_date"), Value.prim (.pDate "2024-01-01")),
     (("s", "total_price_sum"), Value.prim (.pInt 5)),
     (("s", "total_price_mean"), Value.prim (.pInt 5)),
     (("s", "etl_inserted"), Value.prim (.pTs "2024-01-01 00:00:00"))]]⟩

/-- An upstream envelope with no rows, used to instantiate claim C10. -/
def dailyEnvW : ETLDataSet :=
  { name := "wide_orders", current_data := ⟨[], []⟩, primary_keys := ["order_id"],
    storage_path := "s3a://rainforest/delta/gold/wide_orders", data_format := "delta",
    database := "rainforest", partition_keys := ["etl_inserted"] }

/-- The envelope produced by the daily transform on `dailyEnvW`. -/
def dailyOutW : ETLDataSet :=
  { name := "daily_order_metrics",
    current_data :=
      ⟨[("agg", "order_date"), ("agg", "total_price_sum"), ("agg", "total_price_mean"),
        ("", "etl_inserted")], []⟩,
    primary_keys := ["order_ts"],
    storage_path := "s3a://rainforest/delta/gold/daily_order_metrics",
    data_format := "delta", database := "rainforest", partition_keys := ["etl_inserted"] }

/-- Structural restatement of the `extract_upstream` loop, used to reason
about the fold. -/
def extractRec {W : Type} (ru wd : Bool) : List (UpstreamClass W) → W → List ETLDataSet × W
  | [], w => ([], w)
  | t :: ts, w =>
    ((t.read ru wd (if ru then t.run ru wd w else w))
        :: (extractRec ru wd ts (if ru then t.run ru wd w else w)).1,
      (extractRec ru wd ts (if ru then t.run ru wd w else w)).2)

/-- A concrete upstream class over a counter world, for the C4 witness. -/
def upA : UpstreamClass Nat :=
  { run := fun _ _ w => w + 1
    read := fun _ _ w =>
      { name := "a", current_data := ⟨[], []⟩, primary_keys := [],
        storage_path := "", data_format := "delta", database := "rainforest",
        partition_keys := [toString w] } }

/-- A second concrete upstream class over a counter world, for the C4
witness. -/
def upB : UpstreamClass Nat :=
  { run := fun _ _ w => w + 10
    read := fun _ _ w =>
      { name := "b", current_data := ⟨[], []⟩, primary_keys := [],
        storage_path := "", data_format := "delta", database := "rainforest",
        partition_keys := [toString w] } }

/-- Upstream wide-orders envelope with one active order whose price column
is absent, for the daily half of the C6 witness. -/
def envC6 : ETLDataSet :=
  { name := "wide_orders",
    current_data := ⟨[("w", "order_ts"), ("w", "is_active")],
      [[(("w", "order_ts"), Value.prim (.pTs "2024-03-05 10:00:00")),
        (("w", "is_active"), Value.prim (.pBool true))]]⟩,
    primary_keys := ["order_id"],
    storage_path := "s3a://rainforest/delta/gold/wide_orders", data_format := "delta",
    database := "rainforest", partition_keys := ["etl_inserted"] }

/-- One-row fact-order-items envelope (origin tag `f`). -/
def factEnvW : ETLDataSet :=
  { name := "fact_order_items",
    current_data := ⟨[("f", "order_item_id"), ("f", "order_id"), ("f", "product_id"),
        ("f", "seller_id"), ("f", "etl_inserted")],
      [[(("f", "order_item_id"), Value.prim (.pInt 1)),
        (("f", "order_id"), Value.prim (.pInt 100)),
        (("f", "product_id"), Value.prim (.pInt 500)),
        (("f", "seller_id"), Value.prim (.pInt 10)),
        (("f", "etl_inserted"), Value.prim (.pTs "2024-01-01 00:00:00"))]]⟩,
    primary_keys := ["order_item_id"], storage_path := "", data_format := "delta",
    database := "rainforest", partition_keys := ["etl_inserted"] }

/-- One-row product-dimension envelope (origin tag `p`). -/
def prodEnvW : ETLDataSet :=
  { name := "dim_product",
    current_data := ⟨[("p", "product_id"), ("p", "base_price"), ("p", "etl_inserted")],
      [[(("p", "product_id"), Value.prim (.pInt 500)),
        (("p", "base_price"), Value.prim (.pInt 9)),
        (("p", "etl_inserted"), Value.prim (.pTs "2024-01-01 00:00:01"))]]⟩,
    primary_keys := ["product_id"], storage_path := "", data_format := "delta",
    database := "rainforest", partition_keys := ["etl_inserted"] }

/-- One-row seller-dimension envelope (origin tag `s`). -/
def sellEnvW : ETLDataSet :=
  { name := "dim_seller",
    current_data := ⟨[("s", "seller_id"), ("s", "etl_inserted")],
      [[(("s", "seller_id"), Value.prim (.pInt 10)),
        (("s", "etl_inserted"), Value.prim (.pTs "2024-01-01 00:00:02"))]]⟩,
    primary_keys := ["seller_id"], storage_path := "", data_format := "delta",
    database := "rainforest", partition_keys := ["etl_inserted"] }

/-- One-row product-category bridge envelope (origin tag `b`). -/
def pcEnvW : ETLDataSet :=
  { name := "brg_product_category",
    current_data := ⟨[("b", "product_id"), ("b", "category_id"), ("b", "etl_inserted")],
      [[(("b", "product_id"), Value.prim (.pInt 500)),
        (("b", "category_id"), Value.prim (.pInt 7)),
        (("b", "etl_inserted"), Value.prim (.pTs "2024-01-01 00:00:03"))]]⟩,
    primary_keys := ["product_id"], storage_path := "", data_format := "delta",
    database := "rainforest", partition_keys := ["etl_inserted"] }

/-- One-row category-dimension envelope (origin tag `c`). -/
def catEnvW : ETLDataSet :=
  { name := "dim_category",
    current_data := ⟨[("c", "category_id"), ("c", "category_name"), ("c", "etl_inserted")],
      [[(("c", "category_id"), Value.prim (.pInt 7)),
        (("c", "category_name"), Value.prim (.pStr "books")),
        (("c", "etl_inserted"), Value.prim (.pTs "2024-01-01 00:00:04"))]]⟩,
    primary_keys := ["category_id"], storage_path := "", data_format := "delta",
    database := "rainforest", partition_keys := ["etl_inserted"] }

/-- Upstream wide-orders envelope of spec scenario P7: two active orders with
`total_price` 20.00 and 30.00 on 2024-01-01, plus one inactive order with
`total_price` 999.00 on the same date. -/
def envC9 : ETLDataSet :=
  { name := "wide_orders",
    current_data := ⟨[("w", "order_ts"), ("w", "is_active"), ("w", "total_price")],
      [[(("w", "order_ts"), Value.prim (.pTs "2024-01-01 09:00:00")),
        (("w", "is_active"), Value.prim (.pBool true)),
        (("w", "total_price"), Value.prim (.pDec 20))],
       [(("w", "order_ts"), Value.prim (.pTs "2024-01-01 17:30:00")),
        (("w", "is_active"), Value.prim (.pBool true)),
        (("w", "total_price"), Value.prim (.pDec 30))],
       [(("w", "order_ts"), Value.prim (.pTs "2024-01-01 12:00:00")),
        (("w", "is_active"), Value.prim (.pBool false)),
        (("w", "total_price"), Value.prim (.pDec 999))]]⟩,
    primary_keys := ["order_id"],
    storage_path := "s3a://rainforest/delta/gold/wide_orders", data_format := "delta",
    database := "rainforest", partition_keys := ["etl_inserted"] }

def c9Out : ETLDataSet :=
  { name := "daily_order_metrics",
    current_data := ⟨[("agg", "order_date"), ("agg", "total_price_sum"),
        ("agg", "total_price_mean"), ("", "etl_inserted")],
      [[(("agg", "order_date"), Value.prim (.pDate "2024-01-01")),
        (("agg", "total_price_sum"), Value.prim (.pDec 50)),
        (("agg", "total_price_mean"), Value.prim (.pDec 25)),
        (("", "etl_inserted"), Value.prim (.pTs "2024-01-02 00:00:00"))]]⟩,
    primary_keys := ["order_ts"],
    storage_path := "s3a://rainforest/delta/gold/daily_order_metrics",
    data_format := "delta", database := "rainforest",
    partition_keys := ["etl_inserted"] }

/-- The same envelope with the two aggregate cells left as the unevaluated
sum and mean expressions the transform computes. -/
def c9OutSemi : ETLDataSet :=
  { name := "daily_order_metrics",
    current_data := ⟨[("agg", "order_date"), ("agg", "total_price_sum"),
        ("agg", "total_price_mean"), ("", "etl_inserted")],
      [[(("agg", "order_date"), Value.prim (.pDate "2024-01-01")),
        (("agg", "total_price_sum"), Value.prim (.pDec (List.sum [(20 : ℚ), 30]))),
        (("agg", "total_price_mean"),
          Value.prim (.pDec (List.sum [(20 : ℚ), 30] / ((2 : ℕ) : ℚ)))),
        (("", "etl_inserted"), Value.prim (.pTs "2024-01-02 00:00:00"))]]⟩,
    primary_keys := ["order_ts"],
    storage_path := "s3a://rainforest/delta/gold/daily_order_metrics",
    data_format := "delta", database := "rainforest",
    partition_keys := ["etl_inserted"] }

/-- The inventory of `etl_inserted` columns in a schema. -/
def etlCols (cols : List QCol) : List QCol :=
  cols.filter (fun q => q.2 == "etl_inserted")

/-- A two-level upstream declaration for the C5 witness. -/
def unitDefW : UnitDef := UnitDef.node [UnitDef.node [UnitDef.node []], UnitDef.node []]

/-- The schema of the storage used in the C1 witness. -/
def colsC1 : List QCol := [("g", "order_date"), ("g", "etl_inserted")]

/-- The single row written at the first ingestion timestamp in the C1
witness. -/
def rowT1 : Row :=
  [(("g", "order_date"), Value.prim (.pDate "2024-01-01")),
   (("g", "etl_inserted"), Value.prim (.pTs "2024-01-01 00:00:00"))]

/-- The single row written at the second (latest) ingestion timestamp in the
C1 witness. -/
def rowT2 : Row :=
  [(("g", "order_date"), Value.prim (.pDate "2024-01-02")),
   (("g", "etl_inserted"), Value.prim (.pTs "2024-01-02 00:00:00"))]

/-! ## Lemmas about the timestamp order -/

theorem ltChars_irrefl : ∀ as, ltChars as as = false := by
  intro as
  induction as with
  | nil => rfl
  | cons a as ih => simp [ltChars, ih]

theorem tsLt_irrefl (a : String) : tsLt a a = false := ltChars_irrefl a.data

theorem ltChars_asymm : ∀ as bs, ltChars as bs = true → ltChars bs as = false := by
  intro as
  induction as with
  | nil =>
    intro bs h
    cases bs with
    | nil => simp [ltChars] at h
    | cons b bs => rfl
  | cons a as ih =>
    intro bs h
    cases bs with
    | nil => simp [ltChars] at h
    | cons b bs =>
      simp only [ltChars] at h ⊢
      by_cases hab : a.toNat < b.toNat
      · have hba : ¬ b.toNat < a.toNat := Nat.lt_asymm hab
        simp [hab, hba]
      · by_cases hba : b.toNat < a.toNat
        · simp [hab, hba] at h
        · simp only [if_neg hab, if_neg hba] at h ⊢
          exact ih bs h

theorem tsLt_asymm (a b : String) (h : tsLt a b = true) : tsLt b a = false :=
  ltChars_asymm a.data b.data h

theorem tsLt_ne (a b : String) (h : tsLt a b = true) : a ≠ b := by
  intro he
  rw [he, tsLt_irrefl] at h
  exact Bool.noConfusion h

theorem ltChars_total : ∀ as bs, ltChars as bs = false → as = bs ∨ ltChars bs as = true := by
  intro as
  induction as with
  | nil =>
    intro bs h
    cases bs with
    | nil => exact Or.inl rfl
    | cons b bs => simp [ltChars] at h
  | cons a as ih =>
    intro bs h
    cases bs with
    | nil => exact Or.inr rfl
    | cons b bs =>
      simp only [ltChars] at h ⊢
      by_cases hab : a.toNat < b.toNat
      · simp [hab] at h
      · by_cases hba : b.toNat < a.toNat
        · simp [hba]
        · simp only [if_neg hab, if_neg hba] at h ⊢
          have hchar : a = b := Char.le_antisymm (Nat.le_of_not_lt hba) (Nat.le_of_not_lt hab)
          rcases ih bs h with h1 | h1
          · exact Or.inl (by rw [hchar, h1])
          · exact Or.inr h1

theorem tsLt_total (a b : String) (h : tsLt a b = false) : a = b ∨ tsLt b a = true := by
  rcases ltChars_total a.data b.data h with h1 | h1
  · exact Or.inl (String.ext h1)
  · exact Or.inr h1

/-! ## Lemmas about rows, alignment and projection -/

theorem qcols_filter_fst (r : Row) (p : QCol → Bool) :
    Row.qcols (r.filter (fun e => p e.1)) = (Row.qcols r).filter p := by
  simp only [Row.qcols]
  rw [List.filter_map]
  rfl

theorem qcols_filter_name (r : Row) (key : String) :
    Row.qcols (r.filter (fun e => e.1.2 == key)) = (Row.qcols r).filter (fun q => q.2 == key) :=
  qcols_filter_fst r (fun q => q.2 == key)

theorem qcols_filter_not_name (r : Row) (key : String) :
    Row.qcols (r.filter (fun e => !(e.1.2 == key))) = (Row.qcols r).filter (fun q => !(q.2 == key)) :=
  qcols_filter_fst r (fun q => !(q.2 == key))

theorem qcols_filter_not_qcol (r : Row) (q0 : QCol) :
    Row.qcols (r.filter (fun e => !(e.1 == q0))) = (Row.qcols r).filter (fun q => !(q == q0)) :=
  qcols_filter_fst r (fun q => !(q == q0))

theorem qcols_append (r1 r2 : Row) : Row.qcols (r1 ++ r2) = Row.qcols r1 ++ Row.qcols r2 := by
  simp [Row.qcols]

theorem qcols_map_pair (qs : List QCol) (v : Value) :
    Row.qcols (qs.map (fun q => (q, v))) = qs := by
  simp only [Row.qcols, List.map_map]
  exact List.map_id qs

theorem aligned_filterRows (df : DF) (p : Row → Bool) (h : df.Aligned) :
    (df.filterRows p).Aligned := by
  intro r hr
  simp only [DF.filterRows, List.mem_filter] at hr
  exact h r hr.1

theorem resolveQ_snd (cols : List QCol) (c : String) : (resolveQ cols c).2 = c := by
  unfold resolveQ
  cases h : cols.find? (fun q => q.2 == c) with
  | none => rfl
  | some q =>
    have hq := List.find?_some h
    simp only [Option.getD_some]
    exact beq_iff_eq.1 hq

theorem selectNames_cols_names (df : DF) (cs : List String) :
    ((df.selectNames cs).cols.map (fun q => q.2)) = cs := by
  simp only [DF.selectNames, List.map_map]
  have : ∀ c ∈ cs, ((fun q : QCol => q.2) ∘ fun c => resolveQ df.cols c) c = id c := by
    intro c _
    exact resolveQ_snd df.cols c
  rw [List.map_congr_left this, List.map_id]

theorem selectNames_row_names (df : DF) (cs : List String) :
    ∀ r ∈ (df.selectNames cs).rows, r.qcols.map (fun q => q.2) = cs := by
  intro r hr
  simp only [DF.selectNames, List.mem_map] at hr
  obtain ⟨r0, _, hr0⟩ := hr
  subst hr0
  simp only [Row.qcols, List.map_map]
  have : ∀ c ∈ cs,
      ((fun q : QCol => q.2) ∘ (fun e : QCol × Value => e.1) ∘
        fun c => (resolveQ df.cols c, (r0.getByName c).getD (Value.prim .pNull))) c = id c := by
    intro c _
    exact resolveQ_snd df.cols c
  rw [List.map_congr_left this, List.map_id]

theorem aligned_selectNames (df : DF) (cs : List String) : (df.selectNames cs).Aligned := by
  intro r hr
  simp only [DF.selectNames, List.mem_map] at hr
  obtain ⟨r0, _, hr0⟩ := hr
  subst hr0
  simp only [DF.selectNames, Row.qcols, List.map_map]
  rfl

theorem aligned_withColumnE (df : DF) (c : String) (f : Row → Value) (org : String)
    (h : df.Aligned) : (df.withColumnE c f org).Aligned := by
  unfold DF.withColumnE
  by_cases hc : df.cols.any (fun q => q.2 == c) = true
  · simp only [hc, if_true]
    intro r hr
    simp only [List.mem_map] at hr
    obtain ⟨r0, hr0m, hr0⟩ := hr
    subst hr0
    have hq := h r0 hr0m
    rw [← hq]
    simp only [Row.qcols, List.map_map]
    apply List.map_congr_left
    intro e _
    by_cases he : (e.1.2 == c) = true <;> simp [Function.comp, he]
  · simp only [hc, if_false]
    intro r hr
    obtain ⟨r0, hr0m, hr0⟩ := List.mem_map.1 hr
    subst hr0
    rw [qcols_append, h r0 hr0m]
    rfl

theorem aligned_dropCol (df : DF) (q : QCol) (h : df.Aligned) : (df.dropCol q).Aligned := by
  intro r hr
  simp only [DF.dropCol, List.mem_map] at hr
  obtain ⟨r0, hr0m, hr0⟩ := hr
  subst hr0
  show Row.qcols (r0.filter (fun e => !(e.1 == q))) = _
  rw [qcols_filter_not_qcol, h r0 hr0m]
  rfl

theorem aligned_joinUsing (l r : DF) (key : String) (lo : Bool)
    (hl : l.Aligned) (hr : r.Aligned) : (l.joinUsing r key lo).Aligned := by
  intro row hrow
  simp only [DF.joinUsing, List.mem_flatMap] at hrow
  obtain ⟨lr, hlrm, hin⟩ := hrow
  have hlkeys : Row.qcols (lr.filter (fun e => e.1.2 == key))
      = l.cols.filter (fun q => q.2 == key) := by
    rw [qcols_filter_name, hl lr hlrm]
  have hlrest : Row.qcols (lr.filter (fun e => !(e.1.2 == key)))
      = l.cols.filter (fun q => !(q.2 == key)) := by
    rw [qcols_filter_not_name, hl lr hlrm]
  by_cases hemp : (r.rows.filter (fun rr =>
      joinValEq ((lr.getByName key).getD (Value.prim .pNull))
        ((rr.getByName key).getD (Value.prim .pNull)))).isEmpty = true
  · rw [if_pos hemp] at hin
    by_cases hlo : lo = true
    · rw [if_pos hlo, List.mem_singleton] at hin
      subst hin
      show Row.qcols (_ ++ _ ++ _) = _
      rw [qcols_append, qcols_append, hlkeys, hlrest, qcols_map_pair]
      rfl
    · rw [if_neg hlo] at hin
      exact absurd hin (List.not_mem_nil row)
  · rw [if_neg hemp] at hin
    obtain ⟨rr, hrrm, hrr⟩ := List.mem_map.1 hin
    subst hrr
    have hrrm2 : rr ∈ r.rows := (List.mem_filter.1 hrrm).1
    have hrrest : Row.qcols (rr.filter (fun e => !(e.1.2 == key)))
        = r.cols.filter (fun q => !(q.2 == key)) := by
      rw [qcols_filter_not_name, hr rr hrrm2]
    show Row.qcols (_ ++ _ ++ _) = _
    rw [qcols_append, qcols_append, hlkeys, hlrest, hrrest]
    rfl

theorem aligned_dailyAgg (df : DF) : (dailyAgg df).Aligned := by
  intro r hr
  simp only [dailyAgg, List.mem_map] at hr
  obtain ⟨k, _, hk⟩ := hr
  subst hk
  rfl

theorem aligned_collectCategories (df : DF) : (collectCategories df).Aligned := by
  intro r hr
  simp only [collectCategories, List.mem_map] at hr
  obtain ⟨k, _, hk⟩ := hr
  subst hk
  rfl

/-! ## Stamping a constant column -/

theorem withColumnE_const_getByName (df : DF) (h : df.Aligned) (c : String) (v : Value)
    (org : String) :
    ∀ r ∈ (df.withColumnE c (fun _ => v) org).rows, Row.getByName r c = some v := by
  intro r hr
  unfold DF.withColumnE at hr
  by_cases hc : df.cols.any (fun q => q.2 == c) = true
  · rw [if_pos hc] at hr
    obtain ⟨r0, hr0m, hr0⟩ := List.mem_map.1 hr
    subst hr0
    unfold Row.getByName
    rw [List.find?_map]
    have hpred : ((fun e : QCol × Value => e.1.2 == c) ∘
        (fun e : QCol × Value => if e.1.2 == c then ((org, c), v) else e))
        = fun e : QCol × Value => e.1.2 == c := by
      funext e
      by_cases he : (e.1.2 == c) = true <;> simp [Function.comp, he]
    rw [hpred]
    have hex : ∃ e ∈ r0, (e.1.2 == c) = true := by
      rcases List.any_eq_true.1 hc with ⟨q, hqm, hq⟩
      have hq2 : q ∈ Row.qcols r0 := by rw [h r0 hr0m]; exact hqm
      rcases List.mem_map.1 hq2 with ⟨e, hem, he⟩
      exact ⟨e, hem, by rw [he]; exact hq⟩
    have hsome := List.find?_isSome.2 hex
    cases hf : r0.find? (fun e => e.1.2 == c) with
    | none => rw [hf] at hsome; simp at hsome
    | some e0 =>
      have he0 := List.find?_some hf
      have he0b : e0.1.2 = c := beq_iff_eq.1 he0
      simp [he0b]
  · rw [if_neg hc] at hr
    obtain ⟨r0, hr0m, hr0⟩ := List.mem_map.1 hr
    subst hr0
    unfold Row.getByName
    rw [List.find?_append]
    have hnone : r0.find? (fun e => e.1.2 == c) = none := by
      rw [List.find?_eq_none]
      intro e hem hcon
      have hq : e.1 ∈ Row.qcols r0 := List.mem_map_of_mem _ hem
      rw [h r0 hr0m] at hq
      exact hc (List.any_eq_true.2 ⟨e.1, hq, hcon⟩)
    rw [hnone]
    simp

/-! ## Lemmas about the latest-partition probe -/

theorem rowTs_eq_some {r : Row} {t : String} (h : rowTs r = some t) :
    Row.getByName r "etl_inserted" = some (Value.prim (.pTs t)) := by
  unfold rowTs at h
  cases hg : Row.getByName r "etl_inserted" with
  | none => rw [hg] at h; exact Option.noConfusion h
  | some v =>
    rw [hg] at h
    cases v with
    | arr vs => exact Option.noConfusion h
    | prim p =>
      cases p with
      | pTs t2 =>
        simp only [Option.some.injEq] at h
        rw [h]
      | pNull => exact Option.noConfusion h
      | pBool b => exact Option.noConfusion h
      | pInt i => exact Option.noConfusion h
      | pDec q => exact Option.noConfusion h
      | pStr s => exact Option.noConfusion h
      | pDate d => exact Option.noConfusion h

theorem ltChars_trans : ∀ as bs cs, ltChars as bs = true → ltChars bs cs = true →
    ltChars as cs = true := by
  intro as
  induction as with
  | nil =>
    intro bs cs h1 h2
    cases bs with
    | nil => simp [ltChars] at h1
    | cons b bs =>
      cases cs with
      | nil => simp [ltChars] at h2
      | cons c cs => rfl
  | cons a as ih =>
    intro bs cs h1 h2
    cases bs with
    | nil => simp [ltChars] at h1
    | cons b bs =>
      cases cs with
      | nil => simp [ltChars] at h2
      | cons c cs =>
        simp only [ltChars] at h1 h2 ⊢
        by_cases hab : a.toNat < b.toNat
        · by_cases hbc : b.toNat < c.toNat
          · simp [Nat.lt_trans hab hbc]
          · by_cases hcb : c.toNat < b.toNat
            · rw [if_neg hbc, if_pos hcb] at h2
              exact Bool.noConfusion h2
            · have hbceq : b = c := Char.le_antisymm (Nat.le_of_not_lt hcb) (Nat.le_of_not_lt hbc)
              subst hbceq
              simp [hab]
        · by_cases hba : b.toNat < a.toNat
          · rw [if_neg hab, if_pos hba] at h1
            exact Bool.noConfusion h1
          · have habeq : a = b := Char.le_antisymm (Nat.le_of_not_lt hba) (Nat.le_of_not_lt hab)
            subst habeq
            rw [if_neg hab, if_neg hba] at h1
            by_cases hac : a.toNat < c.toNat
            · simp [hac]
            · by_cases hca : c.toNat < a.toNat
              · rw [if_neg hac, if_pos hca] at h2
                exact Bool.noConfusion h2
              · rw [if_neg hac, if_neg hca] at h2 ⊢
                exact ih bs cs h1 h2

theorem tsLt_trans (a b c : String) (h1 : tsLt a b = true) (h2 : tsLt b c = true) :
    tsLt a c = true := ltChars_trans a.data b.data c.data h1 h2

theorem maxEtl_bounded : ∀ (rows : List Row) (t m : String),
    (∀ r ∈ rows, ∀ t2, rowTs r = some t2 → t2 = t ∨ tsLt t2 t = true) →
    maxEtl rows = some m → m = t ∨ tsLt m t = true := by
  intro rows
  induction rows with
  | nil => intro t m _ hm; exact Option.noConfusion hm
  | cons r rs ih =>
    intro t m hb hm
    unfold maxEtl at hm
    cases hr : rowTs r with
    | none =>
      rw [hr] at hm
      exact ih t m (fun r2 h2 => hb r2 (List.mem_cons_of_mem r h2)) hm
    | some t1 =>
      rw [hr] at hm
      have ht1 := hb r (List.mem_cons_self r rs) t1 hr
      cases hms : maxEtl rs with
      | none =>
        rw [hms] at hm
        cases hm
        exact ht1
      | some m1 =>
        rw [hms] at hm
        have hm1 := ih t m1 (fun r2 h2 => hb r2 (List.mem_cons_of_mem r h2)) hms
        cases hm
        unfold maxTs
        by_cases hlt : tsLt t1 m1 = true
        · rw [if_pos hlt]; exact hm1
        · rw [if_neg hlt]; exact ht1

theorem maxEtl_ge : ∀ (rows : List Row) (r : Row) (t : String), r ∈ rows →
    rowTs r = some t → ∃ m, maxEtl rows = some m ∧ (m = t ∨ tsLt t m = true) := by
  intro rows
  induction rows with
  | nil => intro r t h _; exact absurd h (List.not_mem_nil r)
  | cons r0 rs ih =>
    intro r t hmem hts
    rcases List.mem_cons.1 hmem with he | hm
    · subst he
      unfold maxEtl
      rw [hts]
      cases hms : maxEtl rs with
      | none => exact ⟨t, rfl, Or.inl rfl⟩
      | some m1 =>
        refine ⟨maxTs t m1, rfl, ?_⟩
        unfold maxTs
        by_cases hlt : tsLt t m1 = true
        · rw [if_pos hlt]; exact Or.inr hlt
        · rw [if_neg hlt]; exact Or.inl rfl
    · obtain ⟨m1, hm1, hor⟩ := ih r t hm hts
      unfold maxEtl
      rw [hm1]
      cases hts0 : rowTs r0 with
      | none => exact ⟨m1, rfl, hor⟩
      | some t1 =>
        refine ⟨maxTs t1 m1, rfl, ?_⟩
        unfold maxTs
        by_cases hlt : tsLt t1 m1 = true
        · rw [if_pos hlt]; exact hor
        · rw [if_neg hlt]
          rcases tsLt_total t1 m1 (eq_false_of_ne_true hlt) with heq | hgt
          · subst heq; exact hor
          · rcases hor with he2 | hlt2
            · subst he2; exact Or.inr hgt
            · exact Or.inr (tsLt_trans t m1 t1 hlt2 hgt)

theorem maxEtl_attains (rows : List Row) (t : String)
    (hub : ∀ r ∈ rows, ∀ t2, rowTs r = some t2 → t2 = t ∨ tsLt t2 t = true)
    (hex : ∃ r ∈ rows, rowTs r = some t) : maxEtl rows = some t := by
  obtain ⟨r, hrm, hrts⟩ := hex
  obtain ⟨m, hm, hor⟩ := maxEtl_ge rows r t hrm hrts
  have hbd := maxEtl_bounded rows t m hub hm
  rcases hor with he | hlt
  · rw [hm, he]
  · rcases hbd with he2 | hlt2
    · rw [hm, he2]
    · have := tsLt_asymm t m hlt
      rw [this] at hlt2
      exact Bool.noConfusion hlt2

/-! ## Lemmas about the shared gold `read` -/

theorem goldRead_selected (meta : Meta) (cs : List String) (st : TableState) (storage : DF)
    (pv : List (String × String)) :
    ((goldRead meta cs st storage pv).current_data.cols.map (fun q => q.2) = cs)
      ∧ ∀ r ∈ (goldRead meta cs st storage pv).current_data.rows,
          (Row.qcols r).map (fun q => q.2) = cs := by
  unfold goldRead
  by_cases hw : st.write_data = false
  · rw [if_pos hw]
    exact ⟨selectNames_cols_names _ _, selectNames_row_names _ _⟩
  · rw [if_neg hw]
    exact ⟨selectNames_cols_names _ _, selectNames_row_names _ _⟩

/-! ## Claims -/

/-- Claim C2: for every unit with `write_data` true and every non-empty
`partition_values` dictionary, `read()` is claimed to build a conjunction of
equality predicates over exactly the given partition columns.  The builder in
the source joins the clauses with the separator `" AND"` (no trailing space):
on any dictionary with at least two entries it emits
`k1 = 'v1' ANDk2 = 'v2'`, where `ANDk2` is a single malformed token, not the
well-formed conjunction `k1 = 'v1' AND k2 = 'v2'`; on a single entry the two
coincide.  This theorem evaluates the builder at such a failing input. -/
theorem claim_c2 :
    partitionFilterString [("etl_inserted", "2024-01-01 00:00:00"), ("region", "EU")]
        = "etl_inserted = " ++ sQuote ++ "2024-01-01 00:00:00" ++ sQuote
            ++ " ANDregion = " ++ sQuote ++ "EU" ++ sQuote
      ∧ partitionFilterString [("etl_inserted", "2024-01-01 00:00:00"), ("region", "EU")]
          ≠ specConjunctionFilter [("etl_inserted", "2024-01-01 00:00:00"), ("region", "EU")]
      ∧ partitionFilterString [("etl_inserted", "2024-01-01 00:00:00")]
          = specConjunctionFilter [("etl_inserted", "2024-01-01 00:00:00")] :=
  ⟨by decide, by decide, by decide⟩

/-- Claim C8: for every gold unit and every `read()` mode — the three modes
being exhausted by the boolean `write_data` and the emptiness of
`partition_values` — the returned envelope's data is projected to the unit's
fixed published column list: both its schema and every returned row carry
exactly the published column names, in order. -/
theorem claim_c8 (st : TableState) (storage : DF) (pv : List (String × String)) :
    ((DailyOrderMetricsGoldETL.read st storage pv).current_data.cols.map (fun q => q.2)
          = DailyOrderMetricsGoldETL.selected_columns
        ∧ ∀ r ∈ (DailyOrderMetricsGoldETL.read st storage pv).current_data.rows,
            (Row.qcols r).map (fun q => q.2) = DailyOrderMetricsGoldETL.selected_columns)
      ∧ ((WideOrderItemsGoldETL.read st storage pv).current_data.cols.map (fun q => q.2)
          = WideOrderItemsGoldETL.selected_columns
        ∧ ∀ r ∈ (WideOrderItemsGoldETL.read st storage pv).current_data.rows,
            (Row.qcols r).map (fun q => q.2) = WideOrderItemsGoldETL.selected_columns) :=
  ⟨goldRead_selected _ _ _ _ _, goldRead_selected _ _ _ _ _⟩

/-- Witness for claim C8 at a concrete cached dataframe in no-write mode. -/
theorem claim_c8_witness :
    ((DailyOrderMetricsGoldETL.read ⟨true, false, dfW8⟩ ⟨[], []⟩ []).current_data.cols.map
          (fun q => q.2) = DailyOrderMetricsGoldETL.selected_columns)
      ∧ (Row.qcols (List.headI
            (DailyOrderMetricsGoldETL.read ⟨true, false, dfW8⟩ ⟨[], []⟩ []).current_data.rows)).map
          (fun q => q.2) = DailyOrderMetricsGoldETL.selected_columns := by
  have h := claim_c8 ⟨true, false, dfW8⟩ ⟨[], []⟩ []
  refine ⟨h.1.1, ?_⟩
  exact h.1.2 _ (by decide)

/-- Claim C10: every envelope produced by `DailyOrderMetricsGoldETL`'s
`transform_upstream` or `read` declares `primary_keys = ["order_ts"]`, yet
its data columns are exactly `order_date`, `total_price_sum`,
`total_price_mean` and `etl_inserted`: the declared primary-key column
`order_ts` never exists in the output data. -/
theorem claim_c10 :
    (∀ us now ds, DailyOrderMetricsGoldETL.transform_upstream us now = some ds →
      ds.primary_keys = ["order_ts"]
        ∧ ds.current_data.cols.map (fun q => q.2)
            = ["order_date", "total_price_sum", "total_price_mean", "etl_inserted"]
        ∧ "order_ts" ∉ ds.current_data.cols.map (fun q => q.2))
      ∧ (∀ st storage pv,
          (DailyOrderMetricsGoldETL.read st storage pv).primary_keys = ["order_ts"]
            ∧ (DailyOrderMetricsGoldETL.read st storage pv).current_data.cols.map (fun q => q.2)
                = DailyOrderMetricsGoldETL.selected_columns
            ∧ "order_ts" ∉ DailyOrderMetricsGoldETL.selected_columns) := by
  constructor
  · intro us now ds hds
    unfold DailyOrderMetricsGoldETL.transform_upstream at hds
    cases hu : us.get? 0 with
    | none => rw [hu] at hds; exact Option.noConfusion hds
    | some u0 =>
      rw [hu] at hds
      simp only [Option.map_some'] at hds
      cases hds
      refine ⟨rfl, rfl, ?_⟩
      change "order_ts" ∉ ["order_date", "total_price_sum", "total_price_mean", "etl_inserted"]
      decide
  · intro st storage pv
    refine ⟨?_, (goldRead_selected _ _ _ _ _).1, by decide⟩
    unfold DailyOrderMetricsGoldETL.read goldRead
    by_cases hw : st.write_data = false
    · rw [if_pos hw]
      rfl
    · rw [if_neg hw]
      rfl

/-- Witness for claim C10 at a concrete transform call. -/
theorem claim_c10_witness :
    dailyOutW.primary_keys = ["order_ts"]
      ∧ dailyOutW.current_data.cols.map (fun q => q.2)
          = ["order_date", "total_price_sum", "total_price_mean", "etl_inserted"]
      ∧ "order_ts" ∉ dailyOutW.current_data.cols.map (fun q => q.2) :=
  claim_c10.1 [dailyEnvW] "2024-01-01 00:00:00" dailyOutW (by decide)

theorem extract_upstream_foldl_acc {W : Type} (ru wd : Bool) :
    ∀ (ts : List (UpstreamClass W)) (acc : List ETLDataSet) (w : W),
      (ts.foldl
        (fun acc2 table =>
          let w1 := if ru then table.run ru wd acc2.2 else acc2.2
          (acc2.1 ++ [table.read ru wd w1], w1)) (acc, w))
      = (acc ++ (extractRec ru wd ts w).1, (extractRec ru wd ts w).2) := by
  intro ts
  induction ts with
  | nil => intro acc w; simp [extractRec]
  | cons t ts ih =>
    intro acc w
    rw [List.foldl_cons]
    rw [ih]
    simp [extractRec, List.append_assoc]

theorem extract_upstream_eq_rec {W : Type} (ru wd : Bool) (ts : List (UpstreamClass W)) (w : W) :
    extract_upstream ru wd ts w = extractRec ru wd ts w := by
  unfold extract_upstream
  rw [extract_upstream_foldl_acc]
  simp

theorem runWorld_cons {W : Type} (ru wd : Bool) (t : UpstreamClass W)
    (ts : List (UpstreamClass W)) (w : W) :
    runWorld ru wd (t :: ts) w = runWorld ru wd ts (if ru then t.run ru wd w else w) := by
  unfold runWorld
  rw [List.foldl_cons]

/-- Claim C4: for every unit declaring upstream types, the sequence returned
by `extract_upstream` holds the envelopes in exactly declaration order:
position `i` is the envelope read from the `i`-th declared upstream type
(with the external world threaded through the preceding iterations). -/
theorem claim_c4 {W : Type} (run_upstream write_data : Bool)
    (upstream_tables : List (UpstreamClass W)) (w : W) :
    (extract_upstream run_upstream write_data upstream_tables w).1.length
        = upstream_tables.length
      ∧ ∀ i (h : i < upstream_tables.length),
          (extract_upstream run_upstream write_data upstream_tables w).1.get? i
            = some ((upstream_tables.get ⟨i, h⟩).read run_upstream write_data
                (runWorld run_upstream write_data (upstream_tables.take (i + 1)) w)) := by
  rw [extract_upstream_eq_rec]
  constructor
  · induction upstream_tables generalizing w with
    | nil => rfl
    | cons t ts ih => simp [extractRec, ih]
  · induction upstream_tables generalizing w with
    | nil => intro i h; exact absurd h (Nat.not_lt_zero i)
    | cons t ts ih =>
      intro i h
      cases i with
      | zero =>
        simp only [extractRec, List.get?_cons_zero, List.take_succ_cons, List.take_zero]
        rw [runWorld_cons]
        rfl
      | succ i =>
        simp only [extractRec, List.get?_cons_succ, List.take_succ_cons]
        rw [runWorld_cons]
        exact ih (if run_upstream then t.run run_upstream write_data w else w) i
          (Nat.lt_of_succ_lt_succ h)

/-- Witness for claim C4: with two declared upstream classes, position 1 of
the extracted sequence is the envelope read from the second class. -/
theorem claim_c4_witness :
    (extract_upstream true true [upA, upB] 0).1.get? 1
      = some (upB.read true true (runWorld true true (List.take 2 [upA, upB]) 0)) := by
  have h := (claim_c4 true true [upA, upB] 0).2 1 (by decide)
  exact h

theorem extractTrace_aux : ∀ (n : Nat),
    (∀ (d : UnitDef), sizeOf d ≤ n → ∀ (ru wd : Bool), ∀ e ∈ extractTrace d ru wd,
      e.run_upstream = ru ∧ e.write_data = wd ∧ e.ranRun = ru ∧ e.ranRead = true)
    ∧ (∀ (ups : List UnitDef), sizeOf ups ≤ n → ∀ (ru wd : Bool),
        ∀ e ∈ extractTraceList ups ru wd,
      e.run_upstream = ru ∧ e.write_data = wd ∧ e.ranRun = ru ∧ e.ranRead = true) := by
  intro n
  induction n with
  | zero =>
    constructor
    · intro d hd
      cases d with
      | node ups => simp [UnitDef.node.sizeOf_spec] at hd
    · intro ups hd
      cases ups with
      | nil => intro ru wd e he; exact absurd he (List.not_mem_nil e)
      | cons u us => simp at hd
  | succ n ih =>
    constructor
    · intro d hd ru wd e he
      cases d with
      | node ups =>
        rw [extractTrace] at he
        have hsz : sizeOf ups ≤ n := by
          simp [UnitDef.node.sizeOf_spec] at hd
          omega
        exact ih.2 ups hsz ru wd e he
    · intro ups hd ru wd e he
      cases ups with
      | nil => exact absurd he (List.not_mem_nil e)
      | cons u us =>
        rw [extractTraceList] at he
        rcases List.mem_append.1 he with h1 | h2
        · rcases List.mem_cons.1 h1 with he1 | he2
          · subst he1; exact ⟨rfl, rfl, rfl, rfl⟩
          · by_cases hru : ru = true
            · rw [if_pos hru] at he2
              have hsz : sizeOf u ≤ n := by
                simp at hd
                omega
              exact ih.1 u hsz ru wd e he2
            · rw [if_neg hru] at he2
              exact absurd he2 (List.not_mem_nil e)
        · have hsz : sizeOf us ≤ n := by
            simp at hd
            omega
          exact ih.2 us hsz ru wd e h2

/-- Claim C5: `extract_upstream` instantiates each declared upstream type
with the unit's own `run_upstream` and `write_data` values unchanged, calls
the instance's `run()` exactly when `run_upstream` is true, and always calls
its `read()`; consequently every instantiation event reachable through
recursive extraction carries the same two flag values as the root unit. -/
theorem claim_c5 (d : UnitDef) (ru wd : Bool) :
    ∀ e ∈ extractTrace d ru wd,
      e.run_upstream = ru ∧ e.write_data = wd ∧ e.ranRun = ru ∧ e.ranRead = true :=
  (extractTrace_aux (sizeOf d)).1 d (Nat.le_refl _) ru wd

theorem goldRead_nowrite (meta : Meta) (cs : List String) (st : TableState)
    (h : st.write_data = false) (storage : DF) (pv : List (String × String)) :
    goldRead meta cs st storage pv
      = { name := meta.name, current_data := st.current_data.selectNames cs,
          primary_keys := meta.primary_keys, storage_path := meta.storage_path,
          data_format := meta.data_format, database := meta.database,
          partition_keys := meta.partition_keys } := by
  unfold goldRead
  rw [if_pos h]

/-- Claim C3: for every unit with `write_data` false, `read()` after
`transform_upstream` returns exactly the rows cached by the transform,
projected to the canonical column list, and performs no storage access —
its result does not depend on the stored dataframe, and caller-supplied
`partition_values` are never consulted. -/
theorem claim_c3 (st : TableState) (h : st.write_data = false)
    (storage storage2 : DF) (pv pv2 : List (String × String)) :
    (∀ us now ds, DailyOrderMetricsGoldETL.transform_upstream us now = some ds →
        (DailyOrderMetricsGoldETL.read ⟨st.run_upstream, st.write_data, ds.current_data⟩
            storage pv).current_data
          = ds.current_data.selectNames DailyOrderMetricsGoldETL.selected_columns)
      ∧ DailyOrderMetricsGoldETL.read st storage pv = DailyOrderMetricsGoldETL.read st storage2 pv2
      ∧ (∀ us now ds, WideOrderItemsGoldETL.transform_upstream us now = some ds →
          (WideOrderItemsGoldETL.read ⟨st.run_upstream, st.write_data, ds.current_data⟩
              storage pv).current_data
            = ds.current_data.selectNames WideOrderItemsGoldETL.selected_columns)
      ∧ WideOrderItemsGoldETL.read st storage pv = WideOrderItemsGoldETL.read st storage2 pv2 := by
  refine ⟨?_, ?_, ?_, ?_⟩
  · intro us now ds _
    unfold DailyOrderMetricsGoldETL.read
    rw [goldRead_nowrite _ _ ⟨st.run_upstream, st.write_data, ds.current_data⟩ h storage pv]
  · unfold DailyOrderMetricsGoldETL.read
    rw [goldRead_nowrite _ _ _ h, goldRead_nowrite _ _ _ h]
  · intro us now ds _
    unfold WideOrderItemsGoldETL.read
    rw [goldRead_nowrite _ _ ⟨st.run_upstream, st.write_data, ds.current_data⟩ h storage pv]
  · unfold WideOrderItemsGoldETL.read
    rw [goldRead_nowrite _ _ _ h, goldRead_nowrite _ _ _ h]

/-- Witness for claim C3 at a concrete no-write state: the cached transform
output is served back projected, independently of two different storages and
partition filters. -/
theorem claim_c3_witness :
    ((DailyOrderMetricsGoldETL.read ⟨true, false, dailyOutW.current_data⟩ ⟨[], []⟩
          []).current_data
        = dailyOutW.current_data.selectNames DailyOrderMetricsGoldETL.selected_columns)
      ∧ DailyOrderMetricsGoldETL.read ⟨true, false, dfW8⟩ ⟨[], []⟩ []
          = DailyOrderMetricsGoldETL.read ⟨true, false, dfW8⟩ dfW8 [("etl_inserted", "x")] := by
  have h := claim_c3 ⟨true, false, dfW8⟩ rfl ⟨[], []⟩ dfW8 [] [("etl_inserted", "x")]
  exact ⟨h.1 [dailyEnvW] "2024-01-01 00:00:00" dailyOutW (by decide), h.2.1⟩

/-- Claim C6: for every single call to `transform_upstream` of either gold
unit, every row of the output dataset carries the same `etl_inserted` value:
the one timestamp captured once during the call (for the wide unit, under
the assumption that the upstream dataframes are aligned with their
schemas). -/
theorem claim_c6 (now : String) :
    (∀ us ds, DailyOrderMetricsGoldETL.transform_upstream us now = some ds →
        ∀ r ∈ ds.current_data.rows,
          Row.getByName r "etl_inserted" = some (Value.prim (.pTs now)))
      ∧ (∀ us ds, (∀ u ∈ us, u.current_data.Aligned) →
          WideOrderItemsGoldETL.transform_upstream us now = some ds →
          ∀ r ∈ ds.current_data.rows,
            Row.getByName r "etl_inserted" = some (Value.prim (.pTs now))) := by
  constructor
  · intro us ds hds
    unfold DailyOrderMetricsGoldETL.transform_upstream at hds
    cases hu : us.get? 0 with
    | none => rw [hu] at hds; exact Option.noConfusion hds
    | some u0 =>
      rw [hu] at hds
      simp only [Option.map_some'] at hds
      cases hds
      intro r hr
      exact withColumnE_const_getByName _ (aligned_dailyAgg _) _ _ _ r hr
  · intro us ds hAl hds
    unfold WideOrderItemsGoldETL.transform_upstream at hds
    cases h0 : us.get? 0 with
    | none => rw [h0] at hds; exact Option.noConfusion hds
    | some u0 =>
    rw [h0] at hds
    cases h1 : us.get? 1 with
    | none => rw [h1] at hds; exact Option.noConfusion hds
    | some u1 =>
    rw [h1] at hds
    cases h2 : us.get? 2 with
    | none => rw [h2] at hds; exact Option.noConfusion hds
    | some u2 =>
    rw [h2] at hds
    cases h3 : us.get? 3 with
    | none => rw [h3] at hds; exact Option.noConfusion hds
    | some u3 =>
    rw [h3] at hds
    cases h4 : us.get? 4 with
    | none => rw [h4] at hds; exact Option.noConfusion hds
    | some u4 =>
    rw [h4] at hds
    cases hds
    intro r hr
    refine withColumnE_const_getByName _ ?_ _ _ _ r hr
    have hA0 : u0.current_data.Aligned := hAl u0 (List.get?_mem h0)
    have hA1 : u1.current_data.Aligned := hAl u1 (List.get?_mem h1)
    have hA2 : u2.current_data.Aligned := hAl u2 (List.get?_mem h2)
    exact aligned_dropCol _ _ (aligned_dropCol _ _ (aligned_dropCol _ _
      (aligned_joinUsing _ _ "product_id" true
        (aligned_joinUsing _ _ "seller_id" true
          (aligned_joinUsing _ _ "product_id" true hA0 hA1) hA2)
        (aligned_collectCategories _))))

theorem wideEnvsAligned : ∀ u ∈ [factEnvW, prodEnvW, sellEnvW, pcEnvW, catEnvW],
    u.current_data.Aligned := by
  intro u hu
  fin_cases hu <;> (intro r hr; obtain rfl := List.mem_singleton.1 hr; rfl)

/-- Witness for claim C6: for both units, the single output row of a
concrete transform call carries the captured timestamp. -/
theorem claim_c6_witness :
    (Row.getByName
        (List.headI ((DailyOrderMetricsGoldETL.transform_upstream [envC6]
          "2024-03-06 00:00:00").getD envC6).current_data.rows) "etl_inserted"
      = some (Value.prim (.pTs "2024-03-06 00:00:00")))
    ∧ (Row.getByName
        (List.headI ((WideOrderItemsGoldETL.transform_upstream
          [factEnvW, prodEnvW, sellEnvW, pcEnvW, catEnvW]
          "2024-03-06 00:00:00").getD envC6).current_data.rows) "etl_inserted"
      = some (Value.prim (.pTs "2024-03-06 00:00:00"))) := by
  constructor
  · exact (claim_c6 "2024-03-06 00:00:00").1 [envC6]
      ((DailyOrderMetricsGoldETL.transform_upstream [envC6] "2024-03-06 00:00:00").getD envC6)
      (by decide)
      (List.headI ((DailyOrderMetricsGoldETL.transform_upstream [envC6]
        "2024-03-06 00:00:00").getD envC6).current_data.rows)
      (by decide)
  · exact (claim_c6 "2024-03-06 00:00:00").2 [factEnvW, prodEnvW, sellEnvW, pcEnvW, catEnvW]
      ((WideOrderItemsGoldETL.transform_upstream [factEnvW, prodEnvW, sellEnvW, pcEnvW, catEnvW]
        "2024-03-06 00:00:00").getD envC6)
      wideEnvsAligned
      (by decide)
      (List.headI ((WideOrderItemsGoldETL.transform_upstream
        [factEnvW, prodEnvW, sellEnvW, pcEnvW, catEnvW]
        "2024-03-06 00:00:00").getD envC6).current_data.rows)
      (by decide)

/-- Claim C9: the daily-metrics transform keeps only active orders, groups by
`order_date` (`order_ts` cast to date) and emits the sum and mean of
`total_price` per date: on two active orders of 20.00 and 30.00 and one
inactive order of 999.00 on the same date it yields exactly one row, with
`total_price_sum = 50.00` and `total_price_mean = 25.00`, stamped with the
captured timestamp (`c9Out`). -/
theorem claim_c9 :
    DailyOrderMetricsGoldETL.transform_upstream [envC9] "2024-01-02 00:00:00" = some c9Out := by
  have h1 : List.sum [(20 : ℚ), 30] = 50 := by norm_num
  have h2 : (50 : ℚ) / ((2 : ℕ) : ℚ) = 25 := by norm_num
  have key : c9OutSemi = c9Out := by
    unfold c9OutSemi c9Out
    rw [h1, h2]
  exact congrArg some key

theorem etlCols_join (l r : DF) (key : String) (lo : Bool)
    (hk : ("etl_inserted" == key) = false) :
    etlCols (l.joinUsing r key lo).cols = etlCols l.cols ++ etlCols r.cols := by
  unfold DF.joinUsing etlCols
  simp only [List.filter_append]
  have hA : (l.cols.filter (fun q => q.2 == key)).filter (fun q => q.2 == "etl_inserted")
      = [] := by
    rw [List.filter_eq_nil_iff]
    intro q hq hetl
    have hk2 := (List.mem_filter.1 hq).2
    have hek : "etl_inserted" = key := by
      have h1 : q.2 = "etl_inserted" := beq_iff_eq.1 hetl
      have h2 : q.2 = key := beq_iff_eq.1 hk2
      rw [← h1, h2]
    rw [hek] at hk
    simp at hk
  have hB : ∀ (cols : List QCol),
      (cols.filter (fun q => !(q.2 == key))).filter (fun q => q.2 == "etl_inserted")
        = cols.filter (fun q => q.2 == "etl_inserted") := by
    intro cols
    rw [List.filter_filter]
    apply List.filter_congr
    intro q _
    by_cases he : (q.2 == "etl_inserted") = true
    · have h1 : q.2 = "etl_inserted" := beq_iff_eq.1 he
      have h2 : (q.2 == key) = false := by rw [h1]; exact hk
      simp [he, h2]
    · have he2 : (q.2 == "etl_inserted") = false := eq_false_of_ne_true he
      simp [he2]
  rw [hA, hB l.cols, hB r.cols]
  simp

theorem etlCols_dropCol (df : DF) (q0 : QCol) :
    etlCols (df.dropCol q0).cols = (etlCols df.cols).filter (fun q => !(q == q0)) := by
  unfold DF.dropCol etlCols
  rw [List.filter_comm]

theorem etlCols_qualify (org : String) (ns : List String)
    (h : List.count "etl_inserted" ns = 1) :
    etlCols (ns.map (fun n => (org, n))) = [(org, "etl_inserted")] := by
  unfold etlCols
  rw [List.filter_map]
  have hpred : ((fun q : QCol => q.2 == "etl_inserted") ∘ fun n => (org, n))
      = fun n => n == "etl_inserted" := rfl
  rw [hpred, List.filter_beq ns "etl_inserted", h, List.replicate_one]
  rfl

theorem colRef_qualify (org : String) (ns : List String) (df : DF)
    (h : df.cols = ns.map (fun n => (org, n))) (hc : List.count "etl_inserted" ns = 1) :
    df.colRef "etl_inserted" = (org, "etl_inserted") := by
  unfold DF.colRef resolveQ
  rw [h, List.find?_map]
  have hpred : ((fun q : QCol => q.2 == "etl_inserted") ∘ fun n => (org, n))
      = fun n => n == "etl_inserted" := rfl
  rw [hpred]
  have hmem : "etl_inserted" ∈ ns := List.count_pos_iff.1 (by omega)
  have hpp : (("etl_inserted" : String) == "etl_inserted") = true := by decide
  have hsome : (ns.find? (fun n => n == "etl_inserted")).isSome = true :=
    List.find?_isSome.2 ⟨"etl_inserted", hmem, hpp⟩
  cases hf : ns.find? (fun n => n == "etl_inserted") with
  | none => rw [hf] at hsome; simp at hsome
  | some a =>
    have hfa := List.find?_some hf
    have ha : a = "etl_inserted" := beq_iff_eq.1 hfa
    subst ha
    rfl

theorem any_etl_false (cols : List QCol) (h : etlCols cols = []) :
    cols.any (fun q => q.2 == "etl_inserted") = false := by
  rw [List.any_eq_false]
  intro q hq
  exact (List.filter_eq_nil_iff.1 h) q hq

theorem etlCols_withColumn_append (df : DF) (f : Row → Value) (org : String)
    (h : etlCols df.cols = []) :
    etlCols (df.withColumnE "etl_inserted" f org).cols = [(org, "etl_inserted")] := by
  have hany := any_etl_false df.cols h
  unfold DF.withColumnE
  rw [hany]
  simp only [Bool.false_eq_true, if_false]
  unfold etlCols
  rw [List.filter_append]
  unfold etlCols at h
  rw [h]
  simp

theorem etlCols_collect (df : DF) : etlCols (collectCategories df).cols = [] := rfl

theorem not_mem_of_etlCols_single (cols : List QCol)
    (h : etlCols cols = [("", "etl_inserted")]) (org : String) (ho : org ≠ "") :
    (org, "etl_inserted") ∉ cols := by
  intro hm
  have hmem : (org, "etl_inserted") ∈ etlCols cols :=
    List.mem_filter.2 ⟨hm, rfl⟩
  rw [h] at hmem
  have := List.mem_singleton.1 hmem
  exact ho (congrArg Prod.fst this)

/-- Claim C7: in `WideOrderItemsGoldETL.transform_upstream`, the
`etl_inserted` column carried by each joined upstream side (fact order
items, product dimension, seller dimension, product-category bridge,
category dimension — with lineage tags `f`, `p`, `s`, `b`, `c` and each
carrying exactly one `etl_inserted` column) is dropped, and exactly one
`etl_inserted` column — the one newly stamped by this transform — appears in
the output schema. -/
theorem claim_c7 (us : List ETLDataSet) (u0 u1 u2 u3 u4 : ETLDataSet)
    (fn pn sn bn cn : List String)
    (h0 : us.get? 0 = some u0) (h1 : us.get? 1 = some u1) (h2 : us.get? 2 = some u2)
    (h3 : us.get? 3 = some u3) (h4 : us.get? 4 = some u4)
    (hf : u0.current_data.cols = fn.map (fun n => ("f", n)))
    (hp : u1.current_data.cols = pn.map (fun n => ("p", n)))
    (hs : u2.current_data.cols = sn.map (fun n => ("s", n)))
    (hb : u3.current_data.cols = bn.map (fun n => ("b", n)))
    (hc : u4.current_data.cols = cn.map (fun n => ("c", n)))
    (hfc : List.count "etl_inserted" fn = 1) (hpc : List.count "etl_inserted" pn = 1)
    (hsc : List.count "etl_inserted" sn = 1) (hbc : List.count "etl_inserted" bn = 1)
    (hcc : List.count "etl_inserted" cn = 1)
    (ds : ETLDataSet) (now : String)
    (hds : WideOrderItemsGoldETL.transform_upstream us now = some ds) :
    etlCols ds.current_data.cols = [("", "etl_inserted")]
      ∧ ("f", "etl_inserted") ∉ ds.current_data.cols
      ∧ ("p", "etl_inserted") ∉ ds.current_data.cols
      ∧ ("s", "etl_inserted") ∉ ds.current_data.cols
      ∧ ("b", "etl_inserted") ∉ ds.current_data.cols
      ∧ ("c", "etl_inserted") ∉ ds.current_data.cols := by
  unfold WideOrderItemsGoldETL.transform_upstream at hds
  rw [h0, h1, h2, h3, h4] at hds
  cases hds
  have eF : etlCols u0.current_data.cols = [("f", "etl_inserted")] := by
    rw [hf]; exact etlCols_qualify _ _ hfc
  have eP : etlCols u1.current_data.cols = [("p", "etl_inserted")] := by
    rw [hp]; exact etlCols_qualify _ _ hpc
  have eS : etlCols u2.current_data.cols = [("s", "etl_inserted")] := by
    rw [hs]; exact etlCols_qualify _ _ hsc
  have eB : etlCols u3.current_data.cols = [("b", "etl_inserted")] := by
    rw [hb]; exact etlCols_qualify _ _ hbc
  have eC : etlCols u4.current_data.cols = [("c", "etl_inserted")] := by
    rw [hc]; exact etlCols_qualify _ _ hcc
  have rF := colRef_qualify "f" fn u0.current_data hf hfc
  have rP := colRef_qualify "p" pn u1.current_data hp hpc
  have rS := colRef_qualify "s" sn u2.current_data hs hsc
  have efinal : etlCols
      (((((((u0.current_data.joinUsing u1.current_data "product_id" true).joinUsing
          u2.current_data "seller_id" true).joinUsing
            (collectCategories
              (((u3.current_data.joinUsing u4.current_data "category_id" false).dropCol
                  (u4.current_data.colRef "etl_inserted")).dropCol
                (u3.current_data.colRef "etl_inserted")))
            "product_id" true).dropCol
          (u0.current_data.colRef "etl_inserted")).dropCol
        (u1.current_data.colRef "etl_inserted")).dropCol
          (u2.current_data.colRef "etl_inserted")).withColumnE
        "etl_inserted" (fun _ => Value.prim (.pTs now)) "").cols
      = [("", "etl_inserted")] := by
    apply etlCols_withColumn_append
    rw [etlCols_dropCol, etlCols_dropCol, etlCols_dropCol,
      etlCols_join _ _ "product_id" _ (by decide),
      etlCols_join _ _ "seller_id" _ (by decide),
      etlCols_join _ _ "product_id" _ (by decide),
      eF, eP, eS, etlCols_collect, rF, rP, rS]
    decide
  refine ⟨efinal, ?_, ?_, ?_, ?_, ?_⟩
  · exact not_mem_of_etlCols_single _ efinal "f" (by decide)
  · exact not_mem_of_etlCols_single _ efinal "p" (by decide)
  · exact not_mem_of_etlCols_single _ efinal "s" (by decide)
  · exact not_mem_of_etlCols_single _ efinal "b" (by decide)
  · exact not_mem_of_etlCols_single _ efinal "c" (by decide)

/-- Witness for claim C7 at the five concrete one-row upstream envelopes. -/
theorem claim_c7_witness :
    etlCols ((WideOrderItemsGoldETL.transform_upstream
          [factEnvW, prodEnvW, sellEnvW, pcEnvW, catEnvW] "2024-03-06 00:00:00").getD
        factEnvW).current_data.cols = [("", "etl_inserted")]
      ∧ ("f", "etl_inserted") ∉ ((WideOrderItemsGoldETL.transform_upstream
          [factEnvW, prodEnvW, sellEnvW, pcEnvW, catEnvW] "2024-03-06 00:00:00").getD
        factEnvW).current_data.cols := by
  have h := claim_c7 [factEnvW, prodEnvW, sellEnvW, pcEnvW, catEnvW]
    factEnvW prodEnvW sellEnvW pcEnvW catEnvW
    ["order_item_id", "order_id", "product_id", "seller_id", "etl_inserted"]
    ["product_id", "base_price", "etl_inserted"]
    ["seller_id", "etl_inserted"]
    ["product_id", "category_id", "etl_inserted"]
    ["category_id", "category_name", "etl_inserted"]
    rfl rfl rfl rfl rfl rfl rfl rfl rfl rfl
    (by decide) (by decide) (by decide) (by decide) (by decide)
    ((WideOrderItemsGoldETL.transform_upstream
      [factEnvW, prodEnvW, sellEnvW, pcEnvW, catEnvW] "2024-03-06 00:00:00").getD factEnvW)
    "2024-03-06 00:00:00" (by decide)
  exact ⟨h.1, h.2.1⟩

/-- Witness for claim C5: a concrete event of the recursive extraction of a
two-level declaration carries the root's flags. -/
theorem claim_c5_witness :
    (⟨true, false, true, true⟩ : InstEvent).run_upstream = true
      ∧ (⟨true, false, true, true⟩ : InstEvent).write_data = false
      ∧ (⟨true, false, true, true⟩ : InstEvent).ranRun = true
      ∧ (⟨true, false, true, true⟩ : InstEvent).ranRead = true := by
  refine claim_c5 unitDefW true false ⟨true, false, true, true⟩ ?_
  simp [unitDefW, extractTrace, extractTraceList]

theorem rowMatches_etl (r : Row) (t lit : String) (h : rowTs r = some t) :
    rowMatchesClauses [("etl_inserted", lit)] r = (t == lit) := by
  unfold rowMatchesClauses
  have hg := rowTs_eq_some h
  simp [hg, Value.matchesLit]

theorem goldRead_latest (meta : Meta) (cs : List String) (st : TableState)
    (h : st.write_data = true) (cols : List QCol) (storageRows : List Row)
    (tN : String) (rowsN : List Row)
    (hLit : latestPartitionLit storageRows = tN)
    (hFil : storageRows.filter (rowMatchesClauses [("etl_inserted", tN)]) = rowsN) :
    goldRead meta cs st ⟨cols, storageRows⟩ []
      = { name := meta.name,
          current_data := (DF.mk cols rowsN).selectNames cs,
          primary_keys := meta.primary_keys, storage_path := meta.storage_path,
          data_format := meta.data_format, database := meta.database,
          partition_keys := meta.partition_keys } := by
  unfold goldRead
  rw [if_neg (by rw [h]; simp)]
  have hfil2 : DF.filterRows ⟨cols, storageRows⟩
      (rowMatchesClauses
        (if !(([] : List (String × String)).isEmpty) then ([] : List (String × String))
         else [("etl_inserted", latestPartitionLit (DF.mk cols storageRows).rows)]))
      = ⟨cols, rowsN⟩ := by
    unfold DF.filterRows
    simp only [List.isEmpty_nil, Bool.not_true, Bool.false_eq_true, if_false]
    have hl2 : latestPartitionLit (DF.mk cols storageRows).rows = tN := hLit
    rw [hl2, hFil]
  rw [hfil2]

theorem maxEtl_writes (ws0 : List (String × List Row)) (tN : String) (rowsN : List Row)
    (hstamp : ∀ w ∈ ws0 ++ [(tN, rowsN)], ∀ r ∈ w.2, rowTs r = some w.1)
    (hinc : List.Pairwise (fun a b => tsLt a b = true)
      ((ws0 ++ [(tN, rowsN)]).map (fun w => w.1)))
    (hne : rowsN ≠ []) :
    maxEtl (((ws0 ++ [(tN, rowsN)]).map (fun w => w.2)).flatten) = some tN := by
  have hcross : ∀ w ∈ ws0, tsLt w.1 tN = true := by
    rw [List.map_append] at hinc
    have h3 := (List.pairwise_append.1 hinc).2.2
    intro w hw
    exact h3 w.1 (List.mem_map_of_mem _ hw) tN (by simp)
  apply maxEtl_attains
  · intro r hr t2 ht2
    obtain ⟨l, hl, hrl⟩ := List.mem_flatten.1 hr
    obtain ⟨w, hw, hwl⟩ := List.mem_map.1 hl
    subst hwl
    have hts := hstamp w hw r hrl
    rw [hts] at ht2
    have ht2w : t2 = w.1 := (Option.some.inj ht2).symm
    subst ht2w
    rcases List.mem_append.1 hw with hw0 | hwN
    · exact Or.inr (hcross w hw0)
    · have : w = (tN, rowsN) := List.mem_singleton.1 hwN
      rw [this]
      exact Or.inl rfl
  · obtain ⟨r0, hr0⟩ := List.exists_mem_of_ne_nil rowsN hne
    refine ⟨r0, ?_, ?_⟩
    · apply List.mem_flatten.2
      refine ⟨rowsN, ?_, hr0⟩
      apply List.mem_map.2
      exact ⟨(tN, rowsN), by simp, rfl⟩
    · exact hstamp (tN, rowsN) (by simp) r0 hr0

theorem filter_writes (ws0 : List (String × List Row)) (tN : String) (rowsN : List Row)
    (hstamp : ∀ w ∈ ws0 ++ [(tN, rowsN)], ∀ r ∈ w.2, rowTs r = some w.1)
    (hinc : List.Pairwise (fun a b => tsLt a b = true)
      ((ws0 ++ [(tN, rowsN)]).map (fun w => w.1))) :
    (((ws0 ++ [(tN, rowsN)]).map (fun w => w.2)).flatten).filter
        (rowMatchesClauses [("etl_inserted", tN)]) = rowsN := by
  have hcross : ∀ w ∈ ws0, tsLt w.1 tN = true := by
    rw [List.map_append] at hinc
    have h3 := (List.pairwise_append.1 hinc).2.2
    intro w hw
    exact h3 w.1 (List.mem_map_of_mem _ hw) tN (by simp)
  rw [List.map_append, List.flatten_append, List.filter_append]
  have h1 : ((ws0.map (fun w => w.2)).flatten).filter
      (rowMatchesClauses [("etl_inserted", tN)]) = [] := by
    rw [List.filter_eq_nil_iff]
    intro r hr
    obtain ⟨l, hl, hrl⟩ := List.mem_flatten.1 hr
    obtain ⟨w, hw, hwl⟩ := List.mem_map.1 hl
    subst hwl
    have hts := hstamp w (List.mem_append.2 (Or.inl hw)) r hrl
    rw [rowMatches_etl r w.1 tN hts]
    have hne2 : w.1 ≠ tN := tsLt_ne w.1 tN (hcross w hw)
    simp [hne2]
  have h2 : (([(tN, rowsN)].map (fun w => w.2)).flatten).filter
      (rowMatchesClauses [("etl_inserted", tN)]) = rowsN := by
    have hfl : ([(tN, rowsN)].map (fun w => w.2)).flatten = rowsN := by simp
    rw [hfl, List.filter_eq_self]
    intro r hr
    have hts := hstamp (tN, rowsN) (by simp) r hr
    rw [rowMatches_etl r tN tN hts]
    simp
  rw [h1, h2]
  rfl

/-- Claim C1: for both gold units with `write_data` true, `read()` with no
`partition_values` probes storage for the maximum `etl_inserted` value and
returns exactly the stored rows of that partition, projected to the
canonical column list: after writes at strictly increasing ingestion
timestamps ending in `tN` (every row of a write stamped with the write's
timestamp, last write non-empty), the probe finds `tN` and exactly the rows
written at `tN` come back, projected. -/
theorem claim_c1 (stD stW : TableState)
    (hD : stD.write_data = true) (hW : stW.write_data = true)
    (cols : List QCol) (ws0 : List (String × List Row)) (tN : String) (rowsN : List Row)
    (hstamp : ∀ w ∈ ws0 ++ [(tN, rowsN)], ∀ r ∈ w.2, rowTs r = some w.1)
    (hinc : List.Pairwise (fun a b => tsLt a b = true)
      ((ws0 ++ [(tN, rowsN)]).map (fun w => w.1)))
    (hne : rowsN ≠ []) :
    maxEtl (((ws0 ++ [(tN, rowsN)]).map (fun w => w.2)).flatten) = some tN
      ∧ DailyOrderMetricsGoldETL.read stD
          ⟨cols, ((ws0 ++ [(tN, rowsN)]).map (fun w => w.2)).flatten⟩ []
        = { name := DailyOrderMetricsGoldETL.meta.name,
            current_data := (DF.mk cols rowsN).selectNames
              DailyOrderMetricsGoldETL.selected_columns,
            primary_keys := DailyOrderMetricsGoldETL.meta.primary_keys,
            storage_path := DailyOrderMetricsGoldETL.meta.storage_path,
            data_format := DailyOrderMetricsGoldETL.meta.data_format,
            database := DailyOrderMetricsGoldETL.meta.database,
            partition_keys := DailyOrderMetricsGoldETL.meta.partition_keys }
      ∧ WideOrderItemsGoldETL.read stW
          ⟨cols, ((ws0 ++ [(tN, rowsN)]).map (fun w => w.2)).flatten⟩ []
        = { name := WideOrderItemsGoldETL.meta.name,
            current_data := (DF.mk cols rowsN).selectNames
              WideOrderItemsGoldETL.selected_columns,
            primary_keys := WideOrderItemsGoldETL.meta.primary_keys,
            storage_path := WideOrderItemsGoldETL.meta.storage_path,
            data_format := WideOrderItemsGoldETL.meta.data_format,
            database := WideOrderItemsGoldETL.meta.database,
            partition_keys := WideOrderItemsGoldETL.meta.partition_keys } := by
  have hmax := maxEtl_writes ws0 tN rowsN hstamp hinc hne
  have hLit : latestPartitionLit (((ws0 ++ [(tN, rowsN)]).map (fun w => w.2)).flatten) = tN := by
    unfold latestPartitionLit
    rw [hmax]
  have hFil := filter_writes ws0 tN rowsN hstamp hinc
  exact ⟨hmax,
    goldRead_latest DailyOrderMetricsGoldETL.meta DailyOrderMetricsGoldETL.selected_columns
      stD hD cols _ tN rowsN hLit hFil,
    goldRead_latest WideOrderItemsGoldETL.meta WideOrderItemsGoldETL.selected_columns
      stW hW cols _ tN rowsN hLit hFil⟩

/-- Witness for claim C1: two writes at increasing timestamps; the probe
finds the second timestamp and `read()` returns exactly the second write's
row, projected. -/
theorem claim_c1_witness :
    maxEtl ((([("2024-01-01 00:00:00", [rowT1])]
          ++ [("2024-01-02 00:00:00", [rowT2])]).map (fun w => w.2)).flatten)
        = some "2024-01-02 00:00:00"
      ∧ DailyOrderMetricsGoldETL.read ⟨true, true, ⟨[], []⟩⟩
          ⟨colsC1, (([("2024-01-01 00:00:00", [rowT1])]
            ++ [("2024-01-02 00:00:00", [rowT2])]).map (fun w => w.2)).flatten⟩ []
        = { name := DailyOrderMetricsGoldETL.meta.name,
            current_data := (DF.mk colsC1 [rowT2]).selectNames
              DailyOrderMetricsGoldETL.selected_columns,
            primary_keys := DailyOrderMetricsGoldETL.meta.primary_keys,
            storage_path := DailyOrderMetricsGoldETL.meta.storage_path,
            data_format := DailyOrderMetricsGoldETL.meta.data_format,
            database := DailyOrderMetricsGoldETL.meta.database,
            partition_keys := DailyOrderMetricsGoldETL.meta.partition_keys } := by
  have h := claim_c1 ⟨true, true, ⟨[], []⟩⟩ ⟨true, true, ⟨[], []⟩⟩ rfl rfl colsC1
    [("2024-01-01 00:00:00", [rowT1])] "2024-01-02 00:00:00" [rowT2]
    (by decide) (by decide) (by decide)
  exact ⟨h.1, h.2.1⟩

end EcomETL
